import Mathlib

/-!
Verification development for the 3D structural extraction pipeline of
`tdc/utils/load.py`: the atom one-hot encoder (`atom_to_one_hot`), the
molecule extractor (`extract_atom_from_mol`), the protein extractor
(`extract_atom_from_protein`) and the four dataset layout adapters
(`process_pdbbind`, `process_crossdock`, `process_dude`, `process_scpdb`).

The Python code is shallowly embedded: pandas data frames become lists of
records, numpy arrays become lists, Python exceptions become an explicit
`Except PyErr` monad, and file-system / parser collaborators become an
explicit environment record supplying each read operation as a fallible
function.  Coordinates are rationals (the code only copies and compares
them).  All definitions are executable.
-/

/-- Python exception values relevant to the embedded code.  The standard
Python builtin hierarchy is fixed by the language: `IndexError` and
`KeyError` are the subclasses of `LookupError`; `ValueError` (raised by
`list.index` when the element is absent) is a direct subclass of
`Exception` and is not a `LookupError`. -/
inductive PyErr where
  /-- raised by `list.index` on a missing element -/
  | valueError
  /-- raised by sequence indexing out of range, e.g. `s[0]` on an empty string -/
  | indexError
  | keyError
  /-- raised when a global name cannot be resolved -/
  | nameError (n : String)
  /-- `sys.exit(msg)` -/
  | systemExit (msg : String)
  /-- any other runtime exception (parser failures etc.) -/
  | otherError
deriving DecidableEq

/-- The Python classes `IndexError` and `KeyError` are exactly the builtin
subclasses of `LookupError`; `ValueError` and the others are not. -/
def isLookupErrorClass : PyErr → Bool
  | .indexError => true
  | .keyError => true
  | _ => false

/-- Python `list.index(a)`: index of the first occurrence of `a`, raising
`ValueError` when `a` is absent.  Source: `allowed_atom_list.index(atom)`. -/
def listIndex (xs : List String) (a : String) : Except PyErr Nat :=
  match xs with
  | [] => .error .valueError
  | x :: rest => if x = a then .ok 0 else (listIndex rest a).map (· + 1)

/-- Total companion of `listIndex`: the index of the first occurrence
(0 when absent; only used under a membership hypothesis). -/
def pyIndex (xs : List String) (a : String) : Nat :=
  match xs with
  | [] => 0
  | x :: rest => if x = a then 0 else pyIndex rest a + 1

/-- The vector `np.zeros(shape=(n,))` after `v[idx] = 1`: length `n`,
value 1 at position `idx`, 0 elsewhere. -/
def oneHotVec (n idx : Nat) : List Nat :=
  (List.range n).map (fun j => if j = idx then 1 else 0)

/-- Source `atom_to_one_hot` (load.py lines 737-751): look the atom up in
the allowed list with `list.index` (raising `ValueError` when absent) and
build the one-hot vector of length `len(allowed_atom_list)`. -/
def atom_to_one_hot (atom : String) (allowed_atom_list : List String) :
    Except PyErr (List Nat) :=
  (listIndex allowed_atom_list atom).map
    (fun idx => oneHotVec allowed_atom_list.length idx)

/-- Python `s[0]` on a string: the first character as a one-character
string, raising `IndexError` on the empty string. -/
def strHead (s : String) : Except PyErr String :=
  match s.data with
  | [] => .error .indexError
  | c :: _ => .ok (String.mk [c])

/-- Total companion of `strHead` (empty string when there is no first
character; only used where `strHead` succeeded). -/
def firstCharStr (s : String) : String :=
  match s.data with
  | [] => ""
  | c :: _ => String.mk [c]

/-- Python `s.startswith(p)` for the one-character prefix used by the
source (`atom_name.str.startswith` with prefix H): true exactly when the
first character is `H`. -/
def startsWithH (s : String) : Bool :=
  match s.data with
  | [] => false
  | c :: _ => c = 'H'

/-- Left-to-right effectful map in the `Except` monad: the embedding of a
Python loop or comprehension that evaluates a fallible expression per
element, where the first raised exception escapes. -/
def exMapM {α β : Type} (f : α → Except PyErr β) : List α → Except PyErr (List β)
  | [] => .ok []
  | a :: rest => do
      let b ← f a
      let bs ← exMapM f rest
      .ok (b :: bs)

/-- 3D coordinate triple (numpy float row, embedded as rationals). -/
abbrev Coord3 := ℚ × ℚ × ℚ

/-- One row of a biopandas protein frame as used by the source: the
`atom_name` column and the coordinate columns.  The source reads the
coordinates from columns named either `x_coord`/`y_coord`/`z_coord` or
`x`/`y`/`z`; both conventions denote the same per-record coordinates,
which this record stores directly. -/
structure AtomRecord where
  atom_name : String
  x : ℚ
  y : ℚ
  z : ℚ
deriving DecidableEq

/-- The two frames `protein.df["ATOM"]` and `protein.df["HETATM"]`
produced by `PandasPdb().read_pdb`. -/
structure ProteinFrames where
  atom : List AtomRecord
  hetatm : List AtomRecord

/-- One rdkit atom: its element symbol (`GetSymbol()`) and its conformer
position (`GetConformer(0).GetAtomPosition(idx)`). -/
structure MolAtom where
  symbol : String
  pos : Coord3
deriving DecidableEq

/-- A parsed rdkit molecule with its single conformer: the ordered atom
list carries symbol and position. -/
structure RDMol where
  atoms : List MolAtom
deriving DecidableEq

/-- An `(N x 3 coordinates, N x K one-hot types)` pair, the output unit of
both extractors. -/
abbrev ExtractPair := List Coord3 × List (List Nat)

/-- Source `extract_atom_from_mol` (load.py lines 753-769): if any atom
symbol is outside the allowed list return `None` (embedded as `.ok none`);
otherwise collect the conformer positions in atom order and the one-hot
encodings of the symbols in atom order. -/
def extract_atom_from_mol (rdmol : RDMol) (allowed_atom_list : List String) :
    Except PyErr (Option ExtractPair) :=
  if rdmol.atoms.any (fun a => decide (a.symbol ∉ allowed_atom_list)) then
    .ok none
  else do
    let coord := rdmol.atoms.map (fun a => a.pos)
    let atom_type ← exMapM (fun a => atom_to_one_hot a.symbol allowed_atom_list) rdmol.atoms
    .ok (some (coord, atom_type))

/-- Step 1 of the protein extractor: `pd.concat([data_frame, data_frame_het])`
when `keep_het` is set (heteroatom rows appended after the standard rows;
`pd.concat` silently drops a `None` member). -/
def concatHet (df : List AtomRecord) (het : Option (List AtomRecord))
    (keep_het : Bool) : List AtomRecord :=
  if keep_het then df ++ het.getD [] else df

/-- Step 2 of the protein extractor: when `remove_Hs` is set keep the rows
whose `atom_name` does not start with H (the subsequent
`reset_index` only renumbers rows and is a no-op on a list). -/
def dropHs (df : List AtomRecord) (remove_Hs : Bool) : List AtomRecord :=
  if remove_Hs then df.filter (fun r => !(startsWithH r.atom_name)) else df

/-- The data frame reaching the coordinate and type computations of
`extract_atom_from_protein`: het concatenation then hydrogen removal. -/
def survivingRecords (df : List AtomRecord) (het : Option (List AtomRecord))
    (remove_Hs keep_het : Bool) : List AtomRecord :=
  dropHs (concatHet df het keep_het) remove_Hs

/-- The records of a frame whose full `atom_name` string is a member of
the allowed list — the filter of the type-array comprehension
`... for atom in atom_type if atom in allowed_atom_list`. -/
def keptForTypes (frame : List AtomRecord) (allowed_atom_list : List String) :
    List AtomRecord :=
  frame.filter (fun r => decide (r.atom_name ∈ allowed_atom_list))

/-- The body of the type-array comprehension:
`atom_to_one_hot(atom[0], allowed_atom_list)` — first character of the
name (IndexError on an empty name), then the encoder. -/
def encodeRecord (allowed_atom_list : List String) (r : AtomRecord) :
    Except PyErr (List Nat) := do
  let c ← strHead r.atom_name
  atom_to_one_hot c allowed_atom_list

/-- Source `extract_atom_from_protein` (load.py lines 771-802): after the
het/hydrogen stages, the coordinate array takes the x, y, z columns of
EVERY surviving row, while the type array is built only from the rows
whose full `atom_name` is in the allowed list (filter and per-element body
evaluated left to right, the first exception escaping — equal in the
`Except` monad to filtering first and then mapping the fallible body). -/
def extract_atom_from_protein (df : List AtomRecord)
    (het : Option (List AtomRecord)) (remove_Hs keep_het : Bool)
    (allowed_atom_list : List String) : Except PyErr ExtractPair := do
  let frame := survivingRecords df het remove_Hs keep_het
  let coord := frame.map (fun r => (r.x, r.y, r.z))
  let atom_type ← exMapM (encodeRecord allowed_atom_list)
      (keptForTypes frame allowed_atom_list)
  .ok (coord, atom_type)

/-- The collaborator environment of a layout adapter run: the directory
listing (`os.listdir`), the deserialized crossdock index, and the
structure-file parsers keyed by the path string the adapter builds.  Each
parser either yields a parsed value or raises. -/
structure AdapterEnv where
  /-- `os.listdir(path)` for the adapters that walk subdirectories -/
  files : List String
  /-- content of the crossdock `index.pkl`: `(pocket_fn, ligand_fn, _, rmsd)`
  tuples, embedded without the unused third component -/
  index : List (Option String × Option String × ℚ)
  /-- `os.path.exists` -/
  pathExists : String → Bool
  /-- `PandasPdb().read_pdb(p)` giving the ATOM and HETATM frames -/
  readPdb : String → Except PyErr ProteinFrames
  /-- `PandasMol2().read_mol2(p).df` giving a single atom frame (what the
  scpdb adapter would consume if the name `PandasMol2` resolved) -/
  readMol2Protein : String → Except PyErr (List AtomRecord)
  /-- `Chem.MolFromMol2File(p, sanitize=False)` followed by use of the
  result: a failure anywhere in loading the mol2 ligand -/
  readMol2Mol : String → Except PyErr RDMol
  /-- `Chem.SDMolSupplier(p, sanitize=False)[0]` followed by use of the
  result -/
  readSdfFirst : String → Except PyErr RDMol
  /-- iterating `Chem.SDMolSupplier(p, sanitize=False)`: one item per sdf
  record, an item being a molecule or a per-item failure (an unparseable
  record yields `None`, whose use raises) -/
  readSdfAll : String → List (Except PyErr RDMol)

/-- The mutable state of one adapter run: the four growing output lists
(`protein_coords`, `ligand_coords`, `protein_atom_types`,
`ligand_atom_types`) and the failure counter. -/
structure AdapterState where
  protein_coords : List (List Coord3)
  ligand_coords : List (List Coord3)
  protein_atom_types : List (List (List Nat))
  ligand_atom_types : List (List (List Nat))
  failure : Nat
deriving DecidableEq

/-- All four lists empty, failure counter 0. -/
def initState : AdapterState := ⟨[], [], [], [], 0⟩

/-- The four consecutive `append` calls every adapter performs for one
successful protein/ligand pair. -/
def appendPair (st : AdapterState) (pc : List Coord3) (pt : List (List Nat))
    (lc : List Coord3) (lt : List (List Nat)) : AdapterState :=
  { st with
    protein_coords := st.protein_coords ++ [pc]
    ligand_coords := st.ligand_coords ++ [lc]
    protein_atom_types := st.protein_atom_types ++ [pt]
    ligand_atom_types := st.ligand_atom_types ++ [lt] }

/-- `failure += 1` in an except branch. -/
def countFailure (st : AdapterState) : AdapterState :=
  { st with failure := st.failure + 1 }

/-- The adapter configuration shared by the four adapters. -/
structure Config where
  return_pocket : Bool
  remove_Hs : Bool
  keep_het : Bool
  threshold : ℚ
  allowed_atom_list : List String

/-- The per-candidate body of `process_pdbbind` (load.py lines 530-545),
all of which stands inside the per-candidate try: read the protein pdb
(pocket or full), read the first sdf molecule, extract the ligand
(`None` meaning a silent skip), then extract the protein.  Returns the
protein and ligand pairs to append, `none` for a ligand rejection. -/
def pdbbindCandidate (env : AdapterEnv) (path : String) (cfg : Config)
    (file : String) : Except PyErr (Option (ExtractPair × ExtractPair)) := do
  let protein ← env.readPdb (path ++ "/" ++ file ++ "/" ++ file ++
      (if cfg.return_pocket then "_pocket.pdb" else "_protein.pdb"))
  let lig ← env.readSdfFirst (path ++ "/" ++ file ++ "/" ++ file ++ "_ligand.sdf")
  let ligRes ← extract_atom_from_mol lig cfg.allowed_atom_list
  match ligRes with
  | none => pure none
  | some ligPair => do
      let protPair ← extract_atom_from_protein protein.atom (some protein.hetatm)
          cfg.remove_Hs cfg.keep_het cfg.allowed_atom_list
      pure (some (protPair, ligPair))

/-- One iteration of the `process_pdbbind` loop: skip the `readme` and
`index` entries; otherwise run the candidate body, catching any exception
(count a failure), skipping a rejected ligand, and appending a successful
pair to all four lists. -/
def pdbbindStep (env : AdapterEnv) (path : String) (cfg : Config)
    (st : AdapterState) (file : String) : AdapterState :=
  if file = "readme" ∨ file = "index" then st
  else
    match pdbbindCandidate env path cfg file with
    | .error _ => countFailure st
    | .ok none => st
    | .ok (some ((pc, pt), (lc, lt))) => appendPair st pc pt lc lt

/-- Source `process_pdbbind` (load.py lines 497-554): after the
`os.path.exists` setup check (`sys.exit` otherwise), fold the per-file
step over the directory listing.  The whole loop body stands inside the
per-candidate try, so the fold is total. -/
def process_pdbbind (env : AdapterEnv) (path : String) (cfg : Config) :
    Except PyErr AdapterState :=
  if env.pathExists path then
    .ok (env.files.foldl (pdbbindStep env path cfg) initState)
  else .error (.systemExit "Wrong path!")

/-- The part of the `process_crossdock` loop body inside its try
(load.py lines 594-605): read the sdf ligand, extract it (silent skip on
rejection), extract the protein. -/
def crossdockTryBody (env : AdapterEnv) (path : String) (cfg : Config)
    (protein : ProteinFrames) (lfn : String) :
    Except PyErr (Option (ExtractPair × ExtractPair)) := do
  let lig ← env.readSdfFirst (path ++ "/" ++ lfn)
  let ligRes ← extract_atom_from_mol lig cfg.allowed_atom_list
  match ligRes with
  | none => pure none
  | some ligPair => do
      let protPair ← extract_atom_from_protein protein.atom (some protein.hetatm)
          cfg.remove_Hs cfg.keep_het cfg.allowed_atom_list
      pure (some (protPair, ligPair))

/-- One iteration of the `process_crossdock` loop: entries with a missing
pocket or ligand reference are skipped; the protein pdb is read BEFORE the
try block, so a read failure escapes the adapter (hence the `Except`
codomain); the try body failures are counted and skipped. -/
def crossdockStep (env : AdapterEnv) (path : String) (cfg : Config)
    (st : AdapterState) (e : Option String × Option String × ℚ) :
    Except PyErr AdapterState :=
  match e.1, e.2.1 with
  | none, _ => .ok st
  | some _, none => .ok st
  | some pfn, some lfn => do
      let protein ← env.readPdb (path ++ "/" ++ pfn)
      match crossdockTryBody env path cfg protein lfn with
      | .error _ => pure (countFailure st)
      | .ok none => pure st
      | .ok (some ((pc, pt), (lc, lt))) => pure (appendPair st pc pt lc lt)

/-- Source `process_crossdock` (load.py lines 556-612): fold the entry
step over the deserialized index (the data root is
`path/name/crossdocked_pocket10`). -/
def process_crossdock (env : AdapterEnv) (path name : String) (cfg : Config) :
    Except PyErr AdapterState :=
  env.index.foldlM
    (crossdockStep env (path ++ "/" ++ name ++ "/" ++ "crossdocked_pocket10") cfg)
    initState

/-- One iteration of the inner actives loop of `process_dude`
(load.py lines 663-678), entirely inside its try: load one sdf item and
extract it; a failure is counted, a rejection skipped, and a success
appends the SHARED protein pair with the new ligand pair. -/
def dudeLigandStep (cfg : Config) (pc : List Coord3) (pt : List (List Nat))
    (st : AdapterState) (item : Except PyErr RDMol) : AdapterState :=
  match (do
      let lig ← item
      extract_atom_from_mol lig cfg.allowed_atom_list) with
  | .error _ => countFailure st
  | .ok none => st
  | .ok (some (lc, lt)) => appendPair st pc pt lc lt

/-- `np.mean` of a list of rationals (the empty case never arises in the
claims considered; numpy would give NaN there, this embedding gives 0). -/
def listMean (xs : List ℚ) : ℚ := xs.sum / (xs.length : ℚ)

/-- The pocket restriction of `process_dude` (load.py lines 654-658): keep
the protein coordinate rows whose euclidean distance to the crystal-ligand
centroid is at most `threshold`; `sqrt(s) <= t` is embedded as the exactly
equivalent `0 <= t and s <= t*t`. -/
def pocketFilter (ligCoords : List Coord3) (threshold : ℚ)
    (proteinCoords : List Coord3) : List Coord3 :=
  let cx := listMean (ligCoords.map (fun p => p.1))
  let cy := listMean (ligCoords.map (fun p => p.2.1))
  let cz := listMean (ligCoords.map (fun p => p.2.2))
  proteinCoords.filter (fun p =>
    decide (0 ≤ threshold) &&
    decide ((p.1 - cx) * (p.1 - cx) + (p.2.1 - cy) * (p.2.1 - cy) +
        (p.2.2 - cz) * (p.2.2 - cz) ≤ threshold * threshold))

/-- One iteration of the outer `process_dude` loop (load.py lines
642-678).  Reading the receptor, loading and extracting the crystal
ligand, and extracting the protein all happen BEFORE any try block, so
their failures escape the adapter; a crystal-ligand rejection skips the
whole target.  On success the crystal pair is appended and the actives
are folded with the shared protein pair.  (The gzip decompression of
`actives_final.sdf.gz` is an external side effect folded into the
supplier environment.) -/
def dudeTargetStep (env : AdapterEnv) (path : String) (cfg : Config)
    (st : AdapterState) (file : String) : Except PyErr AdapterState := do
  let protein ← env.readPdb (path ++ "/" ++ file ++ "/receptor.pdb")
  let crystal ← env.readMol2Mol (path ++ "/" ++ file ++ "/crystal_ligand.mol2")
  let crystalRes ← extract_atom_from_mol crystal cfg.allowed_atom_list
  match crystalRes with
  | none => pure st
  | some (clc, clt) => do
      let ligands := env.readSdfAll (path ++ "/" ++ file ++ "/actives_final.sdf")
      let protPair ← extract_atom_from_protein protein.atom (some protein.hetatm)
          cfg.remove_Hs cfg.keep_het cfg.allowed_atom_list
      let pc := if cfg.return_pocket then pocketFilter clc cfg.threshold protPair.1
                else protPair.1
      let st1 := appendPair st pc protPair.2 clc clt
      pure (ligands.foldl (dudeLigandStep cfg pc protPair.2) st1)

/-- Source `process_dude` (load.py lines 614-681): fold the target step
over the directory listing of `path/name`. -/
def process_dude (env : AdapterEnv) (path name : String) (cfg : Config) :
    Except PyErr AdapterState :=
  env.files.foldlM (dudeTargetStep env (path ++ "/" ++ name) cfg) initState

/-- The global names bound in the module `tdc/utils/load.py` and usable by
the structural loops: the module-top imports (lines 1-21) bind `requests`,
`ZipFile`, `os`, `sys`, `pd`, `np`, `pickle`, `EmptyDataError`, `tqdm`,
`defaultdict`, `fuzzy_search`, `print_sys` and the metadata names, and the
adapter bodies bind `PandasPdb` and `Chem` locally.  `PandasMol2` is bound
nowhere in the module. -/
def moduleBoundNames : List String :=
  ["requests", "ZipFile", "os", "sys", "pd", "np", "pickle",
   "EmptyDataError", "tqdm", "defaultdict", "fuzzy_search", "print_sys",
   "PandasPdb", "Chem"]

/-- Python global-name resolution inside the module: `NameError` on a name
the module never binds. -/
def resolveGlobal (n : String) : Except PyErr Unit :=
  if moduleBoundNames.contains n then .ok () else .error (.nameError n)

/-- The part of the `process_scpdb` loop body inside its try (load.py
lines 716-728): read the sdf ligand, extract it (silent skip on
rejection), then extract the protein — passing het frame `None` and the
LITERAL `keep_het=False`, not the configured flag. -/
def scpdbTryBody (env : AdapterEnv) (path : String) (cfg : Config)
    (proteinDf : List AtomRecord) (file : String) :
    Except PyErr (Option (ExtractPair × ExtractPair)) := do
  let lig ← env.readSdfFirst (path ++ "/" ++ file ++ "/ligand.sdf")
  let ligRes ← extract_atom_from_mol lig cfg.allowed_atom_list
  match ligRes with
  | none => pure none
  | some ligPair => do
      let protPair ← extract_atom_from_protein proteinDf none
          cfg.remove_Hs false cfg.allowed_atom_list
      pure (some (protPair, ligPair))

/-- One iteration of the `process_scpdb` loop (load.py lines 711-732): the
protein load `PandasMol2().read_mol2(...)` stands BEFORE the try block and
begins by resolving the global name `PandasMol2`, which the module never
binds, so it raises `NameError` and escapes; the try body failures are
counted and skipped. -/
def scpdbTargetStep (env : AdapterEnv) (path : String) (cfg : Config)
    (st : AdapterState) (file : String) : Except PyErr AdapterState := do
  let _u ← resolveGlobal "PandasMol2"
  let proteinDf ← env.readMol2Protein (path ++ "/" ++ file ++
      (if cfg.return_pocket then "/site.mol2" else "/protein.mol2"))
  match scpdbTryBody env path cfg proteinDf file with
  | .error _ => pure (countFailure st)
  | .ok none => pure st
  | .ok (some ((pc, pt), (lc, lt))) => pure (appendPair st pc pt lc lt)

/-- Source `process_scpdb` (load.py lines 683-735): fold the target step
over the directory listing of `path/name`. -/
def process_scpdb (env : AdapterEnv) (path name : String) (cfg : Config) :
    Except PyErr AdapterState :=
  env.files.foldlM (scpdbTargetStep env (path ++ "/" ++ name) cfg) initState

@[simp] lemma exBind_ok {α β : Type} (a : α) (k : α → Except PyErr β) :
    (Except.ok a >>= k) = k a := rfl

@[simp] lemma exBind_error {α β : Type} (e : PyErr) (k : α → Except PyErr β) :
    ((Except.error e : Except PyErr α) >>= k) = .error e := rfl

@[simp] lemma exPure_eq_ok {α : Type} (a : α) :
    (pure a : Except PyErr α) = .ok a := rfl

lemma listIndex_of_mem {wl : List String} {a : String} (h : a ∈ wl) :
    listIndex wl a = .ok (pyIndex wl a) := by
  induction wl with
  | nil => cases h
  | cons x rest ih =>
      by_cases hx : x = a
      · simp [listIndex, pyIndex, hx]
      · rcases List.mem_cons.mp h with h2 | h2
        · exact absurd h2.symm hx
        · simp [listIndex, pyIndex, hx, ih h2, Except.map]

lemma listIndex_of_not_mem {wl : List String} {a : String} (h : a ∉ wl) :
    listIndex wl a = .error .valueError := by
  induction wl with
  | nil => rfl
  | cons x rest ih =>
      have hx : x ≠ a := fun hxa => h (hxa ▸ List.mem_cons_self x rest)
      have hr : a ∉ rest := fun hm => h (List.mem_cons_of_mem x hm)
      simp [listIndex, hx, ih hr, Except.map]

lemma atom_to_one_hot_of_mem {wl : List String} {a : String} (h : a ∈ wl) :
    atom_to_one_hot a wl = .ok (oneHotVec wl.length (pyIndex wl a)) := by
  simp [atom_to_one_hot, listIndex_of_mem h, Except.map]

lemma atom_to_one_hot_of_not_mem {wl : List String} {a : String} (h : a ∉ wl) :
    atom_to_one_hot a wl = .error .valueError := by
  simp [atom_to_one_hot, listIndex_of_not_mem h, Except.map]

lemma oneHotVec_length (n idx : Nat) : (oneHotVec n idx).length = n := by
  simp [oneHotVec]

lemma oneHotVec_getD {n idx j : Nat} (h : j < n) :
    (oneHotVec n idx).getD j 0 = if j = idx then 1 else 0 := by
  have hlen : j < (oneHotVec n idx).length := by simpa [oneHotVec_length]
  rw [List.getD_eq_getElem _ _ hlen]
  simp [oneHotVec]

lemma pyIndex_lt_length {wl : List String} {a : String} (h : a ∈ wl) :
    pyIndex wl a < wl.length := by
  induction wl with
  | nil => cases h
  | cons x rest ih =>
      by_cases hx : x = a
      · simp [pyIndex, hx]
      · rcases List.mem_cons.mp h with h2 | h2
        · exact absurd h2.symm hx
        · simpa [pyIndex, hx] using ih h2

lemma getD_pyIndex {wl : List String} {a : String} (h : a ∈ wl) :
    wl.getD (pyIndex wl a) "" = a := by
  induction wl with
  | nil => cases h
  | cons x rest ih =>
      by_cases hx : x = a
      · simp [pyIndex, hx]
      · rcases List.mem_cons.mp h with h2 | h2
        · exact absurd h2.symm hx
        · simpa [pyIndex, hx] using ih h2

lemma exMapM_ok_iff {α β : Type} (f : α → Except PyErr β) :
    ∀ (l : List α) (t : List β),
      exMapM f l = .ok t ↔ List.Forall₂ (fun a b => f a = .ok b) l t := by
  intro l
  induction l with
  | nil =>
      intro t
      constructor
      · intro h
        cases t with
        | nil => exact List.Forall₂.nil
        | cons b bs => simp [exMapM] at h
      · intro h
        cases h
        rfl
  | cons a rest ih =>
      intro t
      constructor
      · intro h
        cases hfa : f a with
        | error e => simp [exMapM, hfa] at h
        | ok b =>
            cases hrest : exMapM f rest with
            | error e => simp [exMapM, hfa, hrest] at h
            | ok bs =>
                have ht : t = b :: bs := by
                  have h2 := h.symm
                  simp [exMapM, hfa, hrest] at h2
                  exact h2
                subst ht
                exact List.Forall₂.cons hfa ((ih bs).mp hrest)
      · intro h
        cases h with
        | cons hfa hrest =>
            simp [exMapM, hfa, (ih _).mpr hrest]

lemma exMapM_eq_map {α β : Type} (f : α → Except PyErr β) (g : α → β)
    (l : List α) (h : ∀ a ∈ l, f a = .ok (g a)) :
    exMapM f l = .ok (l.map g) := by
  induction l with
  | nil => rfl
  | cons a rest ih =>
      have ha := h a (List.mem_cons_self a rest)
      have hr := ih (fun b hb => h b (List.mem_cons_of_mem a hb))
      simp [exMapM, ha, hr]

lemma exMapM_exists_ok {α β : Type} (f : α → Except PyErr β) (l : List α)
    (h : ∀ a ∈ l, ∃ b, f a = .ok b) :
    ∃ t, exMapM f l = .ok t := by
  induction l with
  | nil => exact ⟨[], rfl⟩
  | cons a rest ih =>
      obtain ⟨b, hb⟩ := h a (List.mem_cons_self a rest)
      obtain ⟨t, ht⟩ := ih (fun x hx => h x (List.mem_cons_of_mem a hx))
      exact ⟨b :: t, by simp [exMapM, hb, ht]⟩

/-- An adapter environment with nothing to enumerate and every parser
failing; concrete runs below override the fields they need. -/
def trivEnv : AdapterEnv :=
  { files := []
  , index := []
  , pathExists := fun _ => true
  , readPdb := fun _ => .error .otherError
  , readMol2Protein := fun _ => .error .otherError
  , readMol2Mol := fun _ => .error .otherError
  , readSdfFirst := fun _ => .error .otherError
  , readSdfAll := fun _ => [] }

/-- The default `allowed_atom_list` of the source signatures. -/
def defaultAllowed : List String :=
  ["C", "N", "O", "S", "H", "B", "Br", "Cl", "P", "I", "F"]

/-- The default configuration of the source signatures. -/
def cfg0 : Config :=
  { return_pocket := false, remove_Hs := true, keep_het := false,
    threshold := 15, allowed_atom_list := defaultAllowed }

/-- C1: the claimed guarantee — equal row counts in the returned
coordinate and type arrays, one row per atom surviving all enabled
filters — is violated by the code: the coordinate array keeps every
record surviving the het/hydrogen stages while the type array is
additionally filtered by whitelist membership of the full atom name.  On
a frame with the single record named CA and whitelist C, N the code
returns one coordinate row and zero type rows. -/
theorem protein_row_count_mismatch :
    ∃ pr, extract_atom_from_protein [⟨"CA", 1, 2, 3⟩] none false false ["C", "N"] =
        .ok pr ∧ pr.1.length = 1 ∧ pr.2.length = 0 :=
  ⟨([(1, 2, 3)], []), rfl, rfl, rfl⟩

/-- C3: the molecule extractor returns the no-result sentinel exactly when
some atom symbol is outside the whitelist, and it never raises: every
input yields an `ok` outcome. -/
theorem mol_reject_iff_and_silent (m : RDMol) (wl : List String) :
    (extract_atom_from_mol m wl = .ok none ↔ ∃ a ∈ m.atoms, a.symbol ∉ wl) ∧
    ∃ r, extract_atom_from_mol m wl = .ok r := by
  by_cases hg : m.atoms.any (fun a => decide (a.symbol ∉ wl)) = true
  · have he : extract_atom_from_mol m wl = .ok none := by
      unfold extract_atom_from_mol
      rw [if_pos hg]
    have hex : ∃ a ∈ m.atoms, a.symbol ∉ wl := by
      simpa [List.any_eq_true] using hg
    exact ⟨⟨fun _ => hex, fun _ => he⟩, ⟨none, he⟩⟩
  · have hall : ∀ a ∈ m.atoms, a.symbol ∈ wl := by
      intro a ha
      by_contra hnot
      exact hg (List.any_eq_true.mpr ⟨a, ha, by simpa using hnot⟩)
    obtain ⟨t, ht⟩ := exMapM_exists_ok
        (fun a => atom_to_one_hot a.symbol wl) m.atoms
        (fun a ha => ⟨_, atom_to_one_hot_of_mem (hall a ha)⟩)
    have he : extract_atom_from_mol m wl =
        .ok (some (m.atoms.map (fun a => a.pos), t)) := by
      unfold extract_atom_from_mol
      rw [if_neg hg]
      simp [ht]
    refine ⟨⟨fun hnone => ?_, fun ⟨a, ha, hn⟩ => absurd (hall a ha) hn⟩, ⟨_, he⟩⟩
    rw [he] at hnone
    simp at hnone

/-- C5: an accepted molecule yields one coordinate row per input atom in
original atom order, and one one-hot row per input atom whose hot index
is the whitelist index of that atom's symbol. -/
theorem mol_accept_shape (m : RDMol) (wl : List String)
    (h : ∀ a ∈ m.atoms, a.symbol ∈ wl) :
    extract_atom_from_mol m wl =
      .ok (some (m.atoms.map (fun a => a.pos),
        m.atoms.map (fun a => oneHotVec wl.length (pyIndex wl a.symbol)))) ∧
    (m.atoms.map (fun a => a.pos)).length = m.atoms.length ∧
    (m.atoms.map (fun a => oneHotVec wl.length (pyIndex wl a.symbol))).length
      = m.atoms.length := by
  have hg : ¬ m.atoms.any (fun a => decide (a.symbol ∉ wl)) = true := by
    intro hany
    obtain ⟨a, ha, hdec⟩ := List.any_eq_true.mp hany
    have hno : a.symbol ∉ wl := by simpa using hdec
    exact hno (h a ha)
  refine ⟨?_, by simp, by simp⟩
  unfold extract_atom_from_mol
  rw [if_neg hg]
  simp [exMapM_eq_map (fun a => atom_to_one_hot a.symbol wl)
    (fun a => oneHotVec wl.length (pyIndex wl a.symbol)) m.atoms
    (fun a ha => atom_to_one_hot_of_mem (h a ha))]

/-- The whitelist C, N, O molecule of the specification scenario with
atoms C, N, O, C. -/
def molCNOC : RDMol :=
  ⟨[⟨"C", (0, 0, 0)⟩, ⟨"N", (1, 0, 0)⟩, ⟨"O", (0, 1, 0)⟩, ⟨"C", (0, 0, 1)⟩]⟩

/-- Witness for C5 at the specification scenario: all four atoms are
whitelisted and the extraction yields the four coordinates in order and
the one-hot rows with hot indices 0, 1, 2, 0. -/
theorem mol_accept_shape_witness :
    (∀ a ∈ molCNOC.atoms, a.symbol ∈ (["C", "N", "O"] : List String)) ∧
    extract_atom_from_mol molCNOC ["C", "N", "O"] =
      .ok (some ([(0, 0, 0), (1, 0, 0), (0, 1, 0), (0, 0, 1)],
        [[1, 0, 0], [0, 1, 0], [0, 0, 1], [1, 0, 0]])) := by
  refine ⟨by decide, ?_⟩
  have h := (mol_accept_shape molCNOC ["C", "N", "O"] (by decide)).1
  rw [h]
  rfl

/-- C6 fails as stated: on a symbol absent from the whitelist the encoder
raises `ValueError` — the exception of `list.index` — which is not in the
`LookupError` class (whose only builtin members are `IndexError` and
`KeyError`). -/
theorem one_hot_missing_raises_value_error :
    atom_to_one_hot "Fe" ["C", "N", "O"] = .error .valueError ∧
    isLookupErrorClass .valueError = false :=
  ⟨rfl, rfl⟩

/-- C6 (amended): the encoder returns a vector of length equal to the
whitelist length with a 1 exactly at the whitelist index of the symbol and
0 elsewhere when the symbol is present, and fails with `ValueError` — the
`list.index` exception, which is not a `LookupError` subclass — when the
symbol is absent. -/
theorem one_hot_contract :
    (∀ (atom : String) (wl : List String), atom ∈ wl →
      atom_to_one_hot atom wl = .ok (oneHotVec wl.length (pyIndex wl atom)) ∧
      (oneHotVec wl.length (pyIndex wl atom)).length = wl.length ∧
      wl.getD (pyIndex wl atom) "" = atom ∧
      (∀ j, j < wl.length →
        (oneHotVec wl.length (pyIndex wl atom)).getD j 0 =
          if j = pyIndex wl atom then 1 else 0)) ∧
    (∀ (atom : String) (wl : List String), atom ∉ wl →
      atom_to_one_hot atom wl = .error .valueError ∧
      isLookupErrorClass .valueError = false) := by
  constructor
  · intro atom wl h
    exact ⟨atom_to_one_hot_of_mem h, oneHotVec_length _ _, getD_pyIndex h,
      fun j hj => oneHotVec_getD hj⟩
  · intro atom wl h
    exact ⟨atom_to_one_hot_of_not_mem h, rfl⟩

/-- Witness for the amended C6, instantiating the present case at N over
the whitelist C, N and the absent case at Fe over the same whitelist. -/
theorem one_hot_contract_witness :
    (("N" : String) ∈ (["C", "N"] : List String) ∧
      (atom_to_one_hot "N" ["C", "N"] =
          .ok (oneHotVec (["C", "N"] : List String).length (pyIndex ["C", "N"] "N")) ∧
        (oneHotVec (["C", "N"] : List String).length (pyIndex ["C", "N"] "N")).length
          = (["C", "N"] : List String).length ∧
        (["C", "N"] : List String).getD (pyIndex ["C", "N"] "N") "" = "N" ∧
        (∀ j, j < (["C", "N"] : List String).length →
          (oneHotVec (["C", "N"] : List String).length (pyIndex ["C", "N"] "N")).getD j 0 =
            if j = pyIndex ["C", "N"] "N" then 1 else 0))) ∧
    (("Fe" : String) ∉ (["C", "N"] : List String) ∧
      (atom_to_one_hot "Fe" ["C", "N"] = .error .valueError ∧
        isLookupErrorClass .valueError = false)) :=
  ⟨⟨by decide, one_hot_contract.1 "N" ["C", "N"] (by decide)⟩,
   ⟨by decide, one_hot_contract.2 "Fe" ["C", "N"] (by decide)⟩⟩

/-- C7 fails as stated: with the remove-hydrogens flag set, a record whose
full atom name H is an entry of the whitelist contributes no row — the
hydrogen drop runs before the whitelist filter, so the stated equivalence
does not hold over all extractions. -/
theorem protein_filter_iff_cx :
    ("H" : String) ∈ (["H"] : List String) ∧
    extract_atom_from_protein [⟨"H", 0, 0, 0⟩] none true false ["H"] =
      .ok ([], []) :=
  ⟨by decide, rfl⟩

/-- C8: with the remove-hydrogens flag set no record whose atom name
begins with H survives into the frame from which both output arrays are
computed; the drop runs after het concatenation, so it also covers
heteroatom records when keep_het is set. -/
theorem remove_hs_drops_hydrogens (df het : List AtomRecord) (kh : Bool)
    (r : AtomRecord) (h : r ∈ survivingRecords df (some het) true kh) :
    startsWithH r.atom_name = false := by
  have h2 : r ∈ (concatHet df (some het) kh).filter
      (fun s => !(startsWithH s.atom_name)) := by
    simpa [survivingRecords, dropHs] using h
  have h3 := (List.mem_filter.mp h2).2
  simpa using h3

/-- Witness for C8: with both flags set, the heteroatom record named N
survives (so het records do flow through the filter) and its name does not
begin with H. -/
theorem remove_hs_drops_hydrogens_witness :
    (⟨"N", 5, 5, 5⟩ : AtomRecord) ∈
      survivingRecords [⟨"CA", 1, 1, 1⟩, ⟨"HB1", 2, 2, 2⟩]
        (some [⟨"N", 5, 5, 5⟩]) true true ∧
    startsWithH (⟨"N", 5, 5, 5⟩ : AtomRecord).atom_name = false :=
  ⟨by decide,
   remove_hs_drops_hydrogens [⟨"CA", 1, 1, 1⟩, ⟨"HB1", 2, 2, 2⟩]
     [⟨"N", 5, 5, 5⟩] true ⟨"N", 5, 5, 5⟩ (by decide)⟩

/-- C9 fails as stated for the scPDB adapter: on a non-empty listing with
keep_het set (and a het-bearing protein available) the adapter returns no
batch at all — it raises `NameError` — and its extraction call moreover
hardcodes keep_het False, so no run of it ever includes heteroatom
records. -/
theorem scpdb_keep_het_cx :
    process_scpdb
      { trivEnv with
        files := ["1abc"]
        readMol2Protein := fun _ => .ok [⟨"C", 0, 0, 0⟩] }
      "root" "scPDB"
      { return_pocket := false, remove_Hs := true, keep_het := true,
        threshold := 15, allowed_atom_list := defaultAllowed } =
      .error (.nameError "PandasMol2") := rfl

/-- C9 (amended): the protein extractor, when handed keep_het true as
pdbbind, crossdock and dude do with their configured flag, concatenates
the het records after the standard records before any filtering; the
scPDB adapter does not honor the flag — its extraction call passes the
literal False and no het frame, and its result is independent of the
configured keep_het. -/
theorem keep_het_policy :
    (∀ (df het : List AtomRecord) (rH : Bool) (wl : List String),
      extract_atom_from_protein df (some het) rH true wl =
        extract_atom_from_protein (df ++ het) none rH false wl) ∧
    (∀ (env : AdapterEnv) (path name : String) (cfg : Config) (b : Bool),
      process_scpdb env path name { cfg with keep_het := b } =
        process_scpdb env path name cfg) := by
  constructor
  · intro df het rH wl
    rfl
  · intro env path name cfg b
    rfl

/-- C10: on any non-empty directory listing the scPDB adapter resolves the
global name `PandasMol2` — bound nowhere in the module — before any
per-candidate handler, so the very first iteration raises `NameError` and
the adapter never returns a batch. -/
theorem scpdb_raises_name_error (env : AdapterEnv) (path name : String)
    (cfg : Config) (f : String) (rest : List String)
    (h : env.files = f :: rest) :
    process_scpdb env path name cfg = .error (.nameError "PandasMol2") := by
  unfold process_scpdb
  rw [h]
  rfl

/-- Witness for C10: a concrete one-entry listing makes the adapter fail
with the `PandasMol2` name error. -/
theorem scpdb_raises_name_error_witness :
    ({ trivEnv with files := ["entry"] } : AdapterEnv).files = "entry" :: [] ∧
    process_scpdb { trivEnv with files := ["entry"] } "p" "scPDB" cfg0 =
      .error (.nameError "PandasMol2") :=
  ⟨rfl, scpdb_raises_name_error _ "p" "scPDB" cfg0 "entry" [] rfl⟩

lemma strHead_of_data_cons {s : String} {ch : Char} {tl : List Char}
    (hd : s.data = ch :: tl) : strHead s = .ok (String.mk [ch]) := by
  unfold strHead
  rw [hd]

lemma firstCharStr_of_data_cons {s : String} {ch : Char} {tl : List Char}
    (hd : s.data = ch :: tl) : firstCharStr s = String.mk [ch] := by
  unfold firstCharStr
  rw [hd]

lemma encodeRecord_ok {wl : List String} {r : AtomRecord} {row : List Nat}
    (h : encodeRecord wl r = .ok row) :
    firstCharStr r.atom_name ∈ wl ∧
      row = oneHotVec wl.length (pyIndex wl (firstCharStr r.atom_name)) := by
  unfold encodeRecord at h
  cases hd : r.atom_name.data with
  | nil =>
      have hs : strHead r.atom_name = .error .indexError := by
        unfold strHead
        rw [hd]
      rw [hs] at h
      simp at h
  | cons ch tl =>
      rw [strHead_of_data_cons hd] at h
      simp at h
      rw [firstCharStr_of_data_cons hd]
      by_cases hm : String.mk [ch] ∈ wl
      · rw [atom_to_one_hot_of_mem hm] at h
        simp at h
        exact ⟨hm, h.symm⟩
      · rw [atom_to_one_hot_of_not_mem hm] at h
        exact Except.noConfusion h

lemma extract_protein_eq (df : List AtomRecord) (het : Option (List AtomRecord))
    (rH kh : Bool) (wl : List String) :
    extract_atom_from_protein df het rH kh wl =
      (exMapM (encodeRecord wl) (keptForTypes (survivingRecords df het rH kh) wl)).map
        (fun ts => ((survivingRecords df het rH kh).map (fun r => (r.x, r.y, r.z)), ts)) := by
  have hz : extract_atom_from_protein df het rH kh wl =
      (exMapM (encodeRecord wl) (keptForTypes (survivingRecords df het rH kh) wl)) >>=
        (fun ts =>
          .ok ((survivingRecords df het rH kh).map (fun r => (r.x, r.y, r.z)), ts)) := rfl
  rw [hz]
  cases exMapM (encodeRecord wl) (keptForTypes (survivingRecords df het rH kh) wl) <;> rfl

/-- C7 (amended): among the records that survive the het-concatenation and
hydrogen-removal stages, exactly those whose full raw atom-name string is
an entry of the whitelist contribute rows to the one-hot type array, in
order, and each contributed row is the one-hot encoding of the first
character of that name (filter on the full name, encoder on the first
character). -/
theorem protein_filter_encodes_head (df : List AtomRecord)
    (het : Option (List AtomRecord)) (rH kh : Bool) (wl : List String)
    (c : List Coord3) (t : List (List Nat))
    (h : extract_atom_from_protein df het rH kh wl = .ok (c, t)) :
    (∀ r ∈ survivingRecords df het rH kh,
      r ∈ keptForTypes (survivingRecords df het rH kh) wl ↔ r.atom_name ∈ wl) ∧
    List.Forall₂
      (fun r row => firstCharStr r.atom_name ∈ wl ∧
        row = oneHotVec wl.length (pyIndex wl (firstCharStr r.atom_name)))
      (keptForTypes (survivingRecords df het rH kh) wl) t ∧
    t.length = (keptForTypes (survivingRecords df het rH kh) wl).length := by
  rw [extract_protein_eq] at h
  cases hm : exMapM (encodeRecord wl) (keptForTypes (survivingRecords df het rH kh) wl) with
  | error e =>
      rw [hm] at h
      simp [Except.map] at h
  | ok ts =>
      rw [hm] at h
      simp [Except.map] at h
      have hts : ts = t := h.2
      subst hts
      have hF := (exMapM_ok_iff (encodeRecord wl)
        (keptForTypes (survivingRecords df het rH kh) wl) ts).mp hm
      refine ⟨?_, ?_, ?_⟩
      · intro r hr
        simp [keptForTypes, List.mem_filter, hr]
      · exact List.Forall₂.imp (fun r row hrr => encodeRecord_ok hrr) hF
      · exact hF.length_eq.symm

/-- Witness for the amended C7: a two-record frame where the record named
C (full name in the whitelist) contributes the row encoding C while the
record named CA (full name not in the whitelist) contributes nothing,
although both contribute coordinate rows. -/
theorem protein_filter_encodes_head_witness :
    extract_atom_from_protein [⟨"C", 1, 1, 1⟩, ⟨"CA", 2, 2, 2⟩] none false false ["C"] =
      .ok ([(1, 1, 1), (2, 2, 2)], [[1]]) ∧
    ((∀ r ∈ survivingRecords [⟨"C", 1, 1, 1⟩, ⟨"CA", 2, 2, 2⟩] none false false,
      r ∈ keptForTypes
          (survivingRecords [⟨"C", 1, 1, 1⟩, ⟨"CA", 2, 2, 2⟩] none false false) ["C"] ↔
        r.atom_name ∈ ["C"]) ∧
    List.Forall₂
      (fun r row => firstCharStr r.atom_name ∈ ["C"] ∧
        row = oneHotVec (["C"] : List String).length (pyIndex ["C"] (firstCharStr r.atom_name)))
      (keptForTypes
        (survivingRecords [⟨"C", 1, 1, 1⟩, ⟨"CA", 2, 2, 2⟩] none false false) ["C"])
      [[1]] ∧
    ([[1]] : List (List Nat)).length =
      (keptForTypes
        (survivingRecords [⟨"C", 1, 1, 1⟩, ⟨"CA", 2, 2, 2⟩] none false false) ["C"]).length) :=
  ⟨rfl,
   protein_filter_encodes_head [⟨"C", 1, 1, 1⟩, ⟨"CA", 2, 2, 2⟩] none false false
     ["C"] [(1, 1, 1), (2, 2, 2)] [[1]] rfl⟩

/-- C2 fails as stated: in `process_crossdock` the protein pdb read of a
candidate happens inside the per-record loop but BEFORE the try block, so
a read failure escapes the adapter instead of being counted — here the
very first candidate aborts the whole run. -/
theorem crossdock_error_escapes_cx :
    process_crossdock { trivEnv with index := [(some "p.pdb", some "l.sdf", 0)] }
      "root" "crossdock" cfg0 = .error .otherError := rfl

lemma foldlM_cons_eq {α σ : Type} (f : σ → α → Except PyErr σ)
    (st : σ) (a : α) (l : List α) :
    (a :: l).foldlM f st = f st a >>= fun s => l.foldlM f s := rfl

lemma crossdock_fold_ok (env : AdapterEnv) (path : String) (cfg : Config)
    (h : ∀ p, ∃ fr, env.readPdb p = .ok fr) :
    ∀ (l : List (Option String × Option String × ℚ)) (st : AdapterState),
      ∃ st2, l.foldlM (crossdockStep env path cfg) st = .ok st2 := by
  intro l
  induction l with
  | nil => intro st; exact ⟨st, rfl⟩
  | cons e rest ih =>
      intro st
      have hstep : ∃ st1, crossdockStep env path cfg st e = .ok st1 := by
        rcases e with ⟨pf, lf, r⟩
        cases pf with
        | none => exact ⟨st, rfl⟩
        | some pfn =>
            cases lf with
            | none => exact ⟨st, rfl⟩
            | some lfn =>
                obtain ⟨fr, hfr⟩ := h (path ++ "/" ++ pfn)
                cases hb : crossdockTryBody env path cfg fr lfn with
                | error e2 =>
                    exact ⟨countFailure st, by
                      unfold crossdockStep
                      dsimp only
                      rw [hfr]
                      simp [hb]⟩
                | ok o =>
                    cases o with
                    | none =>
                        exact ⟨st, by
                          unfold crossdockStep
                          dsimp only
                          rw [hfr]
                          simp [hb]⟩
                    | some pr =>
                        obtain ⟨⟨pc, pt⟩, lc, lt⟩ := pr
                        exact ⟨appendPair st pc pt lc lt, by
                          unfold crossdockStep
                          dsimp only
                          rw [hfr]
                          simp [hb]⟩
      obtain ⟨st1, hst1⟩ := hstep
      obtain ⟨st2, hst2⟩ := ih st1
      exact ⟨st2, by rw [foldlM_cons_eq, hst1]; simpa using hst2⟩

/-- C2 (amended): per-candidate isolation holds exactly where the loop
body stands inside the try: `process_pdbbind` catches every per-candidate
exception (any run over an existing path completes), and
`process_crossdock` can only fail through the protein read it performs
before its try block — with a protein reader that never raises, every
crossdock run completes whatever the other parsers do.  (In
`process_dude` the receptor read, the crystal-ligand handling and the
protein extraction, and in `process_scpdb` the protein load, likewise
stand before the per-candidate handler and their exceptions escape.) -/
theorem per_candidate_isolation :
    (∀ (env : AdapterEnv) (path : String) (cfg : Config),
      env.pathExists path = true →
      ∃ st, process_pdbbind env path cfg = .ok st) ∧
    (∀ (env : AdapterEnv) (path name : String) (cfg : Config),
      (∀ p, ∃ fr, env.readPdb p = .ok fr) →
      ∃ st, process_crossdock env path name cfg = .ok st) := by
  constructor
  · intro env path cfg h
    refine ⟨env.files.foldl (pdbbindStep env path cfg) initState, ?_⟩
    unfold process_pdbbind
    rw [if_pos h]
  · intro env path name cfg h
    exact crossdock_fold_ok env _ cfg h env.index initState

/-- A crossdock environment whose protein reader always succeeds. -/
def okPdbEnv : AdapterEnv :=
  { trivEnv with
    readPdb := fun _ => .ok ⟨[], []⟩
    index := [(some "a", some "b", 0)] }

/-- Witness for the amended C2: a pdbbind run over an existing (empty)
path completes, and a crossdock run whose protein reads always succeed
completes even though every other parser raises. -/
theorem per_candidate_isolation_witness :
    (trivEnv.pathExists "p" = true ∧
      ∃ st, process_pdbbind trivEnv "p" cfg0 = .ok st) ∧
    ((∀ p, ∃ fr, okPdbEnv.readPdb p = .ok fr) ∧
      ∃ st, process_crossdock okPdbEnv "r" "crossdock" cfg0 = .ok st) :=
  ⟨⟨rfl, per_candidate_isolation.1 trivEnv "p" cfg0 rfl⟩,
   ⟨fun _ => ⟨⟨[], []⟩, rfl⟩,
    per_candidate_isolation.2 okPdbEnv "r" "crossdock" cfg0
      (fun _ => ⟨⟨[], []⟩, rfl⟩)⟩⟩

/-- The pairing invariant of an adapter state: the protein collections and
the ligand collections have the same length. -/
def pairedBatch (st : AdapterState) : Prop :=
  st.protein_coords.length = st.ligand_coords.length ∧
  st.protein_atom_types.length = st.ligand_atom_types.length

lemma pairedBatch_append {st : AdapterState} (h : pairedBatch st)
    (pc : List Coord3) (pt : List (List Nat))
    (lc : List Coord3) (lt : List (List Nat)) :
    pairedBatch (appendPair st pc pt lc lt) := by
  unfold pairedBatch appendPair
  simp [h.1, h.2]

lemma pairedBatch_count {st : AdapterState} (h : pairedBatch st) :
    pairedBatch (countFailure st) := h

lemma pdbbindStep_paired (env : AdapterEnv) (path : String) (cfg : Config)
    {st : AdapterState} (file : String) (h : pairedBatch st) :
    pairedBatch (pdbbindStep env path cfg st file) := by
  unfold pdbbindStep
  split
  · exact h
  · split
    · exact pairedBatch_count h
    · exact h
    · exact pairedBatch_append h _ _ _ _

lemma crossdockStep_paired (env : AdapterEnv) (path : String) (cfg : Config)
    {st st2 : AdapterState} {e : Option String × Option String × ℚ}
    (hs : crossdockStep env path cfg st e = .ok st2) (h : pairedBatch st) :
    pairedBatch st2 := by
  rcases e with ⟨pf, lf, r⟩
  cases pf with
  | none =>
      unfold crossdockStep at hs
      simp at hs
      subst hs
      exact h
  | some pfn =>
      cases lf with
      | none =>
          unfold crossdockStep at hs
          simp at hs
          subst hs
          exact h
      | some lfn =>
          unfold crossdockStep at hs
          dsimp only at hs
          cases hp : env.readPdb (path ++ "/" ++ pfn) with
          | error e2 =>
              rw [hp] at hs
              simp at hs
          | ok fr =>
              rw [hp] at hs
              simp at hs
              cases hb : crossdockTryBody env path cfg fr lfn with
              | error e2 =>
                  rw [hb] at hs
                  simp at hs
                  subst hs
                  exact pairedBatch_count h
              | ok o =>
                  rw [hb] at hs
                  cases o with
                  | none =>
                      simp at hs
                      subst hs
                      exact h
                  | some pr =>
                      obtain ⟨⟨pc, pt⟩, lc, lt⟩ := pr
                      simp at hs
                      subst hs
                      exact pairedBatch_append h pc pt lc lt

lemma dudeLigand_fold_paired (cfg : Config) (pc : List Coord3)
    (pt : List (List Nat)) :
    ∀ (l : List (Except PyErr RDMol)) {st : AdapterState}, pairedBatch st →
      pairedBatch (l.foldl (dudeLigandStep cfg pc pt) st) := by
  intro l
  induction l with
  | nil => intro st h; exact h
  | cons item rest ih =>
      intro st h
      rw [List.foldl_cons]
      apply ih
      unfold dudeLigandStep
      split
      · exact pairedBatch_count h
      · exact h
      · exact pairedBatch_append h _ _ _ _

lemma dudeTargetStep_paired (env : AdapterEnv) (path : String) (cfg : Config)
    {st st2 : AdapterState} (file : String)
    (hs : dudeTargetStep env path cfg st file = .ok st2) (h : pairedBatch st) :
    pairedBatch st2 := by
  unfold dudeTargetStep at hs
  cases hp : env.readPdb (path ++ "/" ++ file ++ "/receptor.pdb") with
  | error e => rw [hp] at hs; simp at hs
  | ok protein =>
      rw [hp] at hs
      simp at hs
      cases hc : env.readMol2Mol (path ++ "/" ++ file ++ "/crystal_ligand.mol2") with
      | error e => rw [hc] at hs; simp at hs
      | ok crystal =>
          rw [hc] at hs
          simp at hs
          cases hcr : extract_atom_from_mol crystal cfg.allowed_atom_list with
          | error e => rw [hcr] at hs; simp at hs
          | ok o =>
              rw [hcr] at hs
              cases o with
              | none =>
                  simp at hs
                  subst hs
                  exact h
              | some pr =>
                  obtain ⟨clc, clt⟩ := pr
                  simp at hs
                  cases hpp : extract_atom_from_protein protein.atom
                      (some protein.hetatm) cfg.remove_Hs cfg.keep_het
                      cfg.allowed_atom_list with
                  | error e => rw [hpp] at hs; simp at hs
                  | ok protPair =>
                      rw [hpp] at hs
                      simp at hs
                      subst hs
                      exact dudeLigand_fold_paired cfg _ _ _
                        (pairedBatch_append h _ _ _ _)

lemma scpdbTargetStep_paired (env : AdapterEnv) (path : String) (cfg : Config)
    {st st2 : AdapterState} (file : String)
    (hs : scpdbTargetStep env path cfg st file = .ok st2) (_h : pairedBatch st) :
    pairedBatch st2 := by
  unfold scpdbTargetStep at hs
  rw [show resolveGlobal "PandasMol2" = .error (.nameError "PandasMol2") from rfl] at hs
  simp at hs

lemma foldlM_paired {α : Type} (f : AdapterState → α → Except PyErr AdapterState)
    (hf : ∀ (st : AdapterState) (a : α) (st2 : AdapterState),
      f st a = .ok st2 → pairedBatch st → pairedBatch st2) :
    ∀ (l : List α) (st st2 : AdapterState),
      l.foldlM f st = .ok st2 → pairedBatch st → pairedBatch st2 := by
  intro l
  induction l with
  | nil =>
      intro st st2 hfold h
      have h2 : st = st2 := by simpa [List.foldlM] using hfold
      exact h2 ▸ h
  | cons a rest ih =>
      intro st st2 hfold h
      rw [foldlM_cons_eq] at hfold
      cases hstep : f st a with
      | error e => rw [hstep] at hfold; simp at hfold
      | ok st1 =>
          rw [hstep] at hfold
          simp at hfold
          exact ih st1 st2 hfold (hf st a st1 hstep h)

lemma pdbbind_fold_paired (env : AdapterEnv) (path : String) (cfg : Config) :
    ∀ (l : List String) {st : AdapterState}, pairedBatch st →
      pairedBatch (l.foldl (pdbbindStep env path cfg) st) := by
  intro l
  induction l with
  | nil => intro st h; exact h
  | cons file rest ih =>
      intro st h
      rw [List.foldl_cons]
      exact ih (pdbbindStep_paired env path cfg file h)

/-- C4: the batch pairing invariant.  The three adapter steps that can
complete a candidate preserve equality of the protein and ligand
collection lengths (each append to one collection is matched by an append
to the other, and a rejected or failed pair contributes to neither), and
every batch returned by any of the four adapters satisfies the
invariant.  (The scPDB step never completes a candidate — it always
raises, see the C10 theorem — so the invariant holds for its returned
batches vacuously through the empty fold.) -/
theorem batch_pairing :
    (∀ (env : AdapterEnv) (path : String) (cfg : Config) (st : AdapterState)
      (file : String), pairedBatch st →
      pairedBatch (pdbbindStep env path cfg st file)) ∧
    (∀ (env : AdapterEnv) (path : String) (cfg : Config)
      (st : AdapterState) (e : Option String × Option String × ℚ)
      (st2 : AdapterState), crossdockStep env path cfg st e = .ok st2 →
      pairedBatch st → pairedBatch st2) ∧
    (∀ (env : AdapterEnv) (path : String) (cfg : Config) (st : AdapterState)
      (file : String) (st2 : AdapterState),
      dudeTargetStep env path cfg st file = .ok st2 →
      pairedBatch st → pairedBatch st2) ∧
    (∀ (env : AdapterEnv) (path : String) (cfg : Config) (st : AdapterState),
      process_pdbbind env path cfg = .ok st → pairedBatch st) ∧
    (∀ (env : AdapterEnv) (path name : String) (cfg : Config)
      (st : AdapterState), process_crossdock env path name cfg = .ok st →
      pairedBatch st) ∧
    (∀ (env : AdapterEnv) (path name : String) (cfg : Config)
      (st : AdapterState), process_dude env path name cfg = .ok st →
      pairedBatch st) ∧
    (∀ (env : AdapterEnv) (path name : String) (cfg : Config)
      (st : AdapterState), process_scpdb env path name cfg = .ok st →
      pairedBatch st) := by
  refine ⟨?_, ?_, ?_, ?_, ?_, ?_, ?_⟩
  · intro env path cfg st file h
    exact pdbbindStep_paired env path cfg file h
  · intro env path cfg st e st2 hs h
    exact crossdockStep_paired env path cfg hs h
  · intro env path cfg st file st2 hs h
    exact dudeTargetStep_paired env path cfg file hs h
  · intro env path cfg st h
    unfold process_pdbbind at h
    by_cases hp : env.pathExists path = true
    · rw [if_pos hp] at h
      simp at h
      subst h
      exact pdbbind_fold_paired env path cfg env.files ⟨rfl, rfl⟩
    · rw [if_neg hp] at h
      simp at h
  · intro env path name cfg st h
    exact foldlM_paired _ (fun s a s2 hs hp => crossdockStep_paired env _ cfg hs hp)
      env.index initState st h ⟨rfl, rfl⟩
  · intro env path name cfg st h
    exact foldlM_paired _ (fun s a s2 hs hp => dudeTargetStep_paired env _ cfg a hs hp)
      env.files initState st h ⟨rfl, rfl⟩
  · intro env path name cfg st h
    exact foldlM_paired _ (fun s a s2 hs hp => scpdbTargetStep_paired env _ cfg a hs hp)
      env.files initState st h ⟨rfl, rfl⟩

/-- A dude environment where every pre-try read succeeds on an empty
structure, so the target step completes. -/
def dudeOkEnv : AdapterEnv :=
  { trivEnv with
    readPdb := fun _ => .ok ⟨[], []⟩
    readMol2Mol := fun _ => .ok ⟨[]⟩ }

/-- Witness for C4, instantiating every conjunct at a concrete input:
the three step preservations at explicit states and the four adapters at
environments on which they return a batch. -/
theorem batch_pairing_witness :
    (pairedBatch initState ∧
      pairedBatch (pdbbindStep trivEnv "p" cfg0 initState "f")) ∧
    (crossdockStep trivEnv "p" cfg0 initState (none, none, 0) = .ok initState ∧
      pairedBatch initState) ∧
    (dudeTargetStep dudeOkEnv "p" cfg0 initState "f" =
        .ok (appendPair initState [] [] [] []) ∧
      pairedBatch (appendPair initState [] [] [] [])) ∧
    (process_pdbbind trivEnv "p" cfg0 = .ok initState ∧ pairedBatch initState) ∧
    (process_crossdock trivEnv "p" "crossdock" cfg0 = .ok initState ∧
      pairedBatch initState) ∧
    (process_dude trivEnv "p" "dude" cfg0 = .ok initState ∧
      pairedBatch initState) ∧
    (process_scpdb trivEnv "p" "scPDB" cfg0 = .ok initState ∧
      pairedBatch initState) :=
  ⟨⟨⟨rfl, rfl⟩, batch_pairing.1 trivEnv "p" cfg0 initState "f" ⟨rfl, rfl⟩⟩,
   ⟨rfl, batch_pairing.2.1 trivEnv "p" cfg0 initState (none, none, 0) initState
      rfl ⟨rfl, rfl⟩⟩,
   ⟨rfl, batch_pairing.2.2.1 dudeOkEnv "p" cfg0 initState "f"
      (appendPair initState [] [] [] []) rfl ⟨rfl, rfl⟩⟩,
   ⟨rfl, batch_pairing.2.2.2.1 trivEnv "p" cfg0 initState rfl⟩,
   ⟨rfl, batch_pairing.2.2.2.2.1 trivEnv "p" "crossdock" cfg0 initState rfl⟩,
   ⟨rfl, batch_pairing.2.2.2.2.2.1 trivEnv "p" "dude" cfg0 initState rfl⟩,
   ⟨rfl, batch_pairing.2.2.2.2.2.2 trivEnv "p" "scPDB" cfg0 initState rfl⟩⟩
